import Mathlib

/-
Verification of the tag index layer of the registry
(registry/storage/tagstore.go): the tagStore methods All, Tag, Get,
Untag and Lookup, shallowly embedded over an abstract storage state.

The storage driver, the path naming scheme (pathFor), the link store
(blobStore.link / blobStore.readlink) and linkedBlobStore.linkBlob are
external to the given source file; where their behaviour decides a
property they are modelled from the specification (see the doc comments
marked "Modelled from the spec").
-/

set_option autoImplicit false

namespace Distribution

/-- A content digest: an opaque, comparable string (go-digest). -/
abbrev Digest := String

/-- distribution.Descriptor — only the Digest field is used by the tag
store (the other fields are inert for this subsystem). -/
structure Descriptor where
  digest : Digest
  deriving DecidableEq, Repr

/-- The error kinds visible at the tag store boundary:
`pathNotFound` is storagedriver.PathNotFoundError,
`repositoryUnknown` is distribution.ErrRepositoryUnknown,
`tagUnknown` is distribution.ErrTagUnknown,
`digestInvalid` is the digest validation error raised on a malformed
digest, and `other` stands for any further backend failure. -/
inductive StorageErr where
  | pathNotFound
  | repositoryUnknown (name : String)
  | tagUnknown (tag : String)
  | digestInvalid
  | other (msg : String)
  deriving DecidableEq, Repr

/-- The persisted storage state seen through the path layout used by the
tag store, for one repository:
`tagDir` is the listing of the repository's tag directory (`none` when
the directory itself does not exist, i.e. no tag was ever set);
`current` holds the current-tag links as an association list
tag ↦ digest; `index` holds the tag-revision index-entry links as a
list of (tag, digest) pairs. -/
structure State where
  name : String
  tagDir : Option (List String)
  current : List (String × Digest)
  index : List (String × Digest)
  deriving DecidableEq, Repr

/-- Fault injection for the backend driver, mirroring the instrumented
driver used by the repository's tests (e.g. GetContentError): each
operation either behaves according to `State` (`none`) or fails with the
injected error. -/
structure Faults where
  listErr : Option StorageErr
  readErr : String → Option StorageErr
  deleteErr : String → Option StorageErr
  putIndexErr : Option StorageErr
  putCurrentErr : Option StorageErr

/-- The fault-free environment: every driver call behaves according to
the storage state. -/
def noFaults : Faults :=
  { listErr := none
    readErr := fun _ => none
    deleteErr := fun _ => none
    putIndexErr := none
    putCurrentErr := none }

/-- Look a tag up in an association list of links (first match wins). -/
def lookupLink (l : List (String × Digest)) (t : String) : Option Digest :=
  (l.find? (fun p => p.1 == t)).map (fun p => p.2)

/-- The digest the current-tag link of `t` holds, if present. -/
def currentOf (s : State) (t : String) : Option Digest :=
  lookupLink s.current t

/-- The entries of the tag directory (empty when the directory is
absent). -/
def tagsOf (s : State) : List String :=
  s.tagDir.getD []

/-- Add an entry to a directory listing if not already present. -/
def insertDirEntry (l : List String) (t : String) : List String :=
  if t ∈ l then l else l ++ [t]

/-- Write the tag-revision index-entry link for `(t, d)`; idempotent if
it already exists. -/
def insertIndexEntry (l : List (String × Digest)) (t : String) (d : Digest) :
    List (String × Digest) :=
  if (t, d) ∈ l then l else l ++ [(t, d)]

/-- Overwrite the current-tag link of `t` to `d` (no older value is
retained). -/
def setCurrent (l : List (String × Digest)) (t : String) (d : Digest) :
    List (String × Digest) :=
  (t, d) :: l.filter (fun p => p.1 != t)

/-- driver.List on the repository's tag directory path: a
PathNotFoundError when the directory does not exist, the directory
entries otherwise (each entry modelled directly by its base name, as the
code only keeps `path.Split`'s filename component). -/
def driverList (f : Faults) (s : State) : Except StorageErr (List String) :=
  match f.listErr with
  | some e => .error e
  | none =>
    match s.tagDir with
    | none => .error .pathNotFound
    | some entries => .ok entries

/-- tagStore.All: list the tag directory; a PathNotFoundError becomes
ErrRepositoryUnknown for the repository's name, any other listing
failure is returned unmodified; either way the accumulated (empty) tag
slice is returned alongside. -/
def All (f : Faults) (s : State) : List String × Option StorageErr :=
  match driverList f s with
  | .error .pathNotFound => ([], some (.repositoryUnknown s.name))
  | .error e => ([], some e)
  | .ok entries => (entries, none)

/-- Modelled from the spec (blobStore.readlink is not under src):
reading the current-tag link file returns the stored digest, failing
with NotFound when no file exists at the path and with the injected
backend error when the driver misbehaves. -/
def readlink (f : Faults) (s : State) (t : String) : Except StorageErr Digest :=
  match f.readErr t with
  | some e => .error e
  | none =>
    match currentOf s t with
    | some d => .ok d
    | none => .error .pathNotFound

/-- tagStore.Get: read the current-tag link; a PathNotFoundError is
translated to ErrTagUnknown for the tag, any other read failure is
surfaced unchanged. -/
def Get (f : Faults) (s : State) (t : String) : Except StorageErr Descriptor :=
  match readlink f s t with
  | .error .pathNotFound => .error (.tagUnknown t)
  | .error e => .error e
  | .ok d => .ok ⟨d⟩

/-- Scan the characters of a digest after a non-empty algorithm prefix:
every character up to the separator must be a lower-case letter or a
digit, and the encoded part after the separator must be non-empty and
alphanumeric. -/
def validDigestAux : List Char → Bool
  | [] => false
  | c :: rest =>
    if c = ':' then !rest.isEmpty && rest.all (fun x => x.isAlphanum)
    else (c.isLower || c.isDigit) && validDigestAux rest

/-- Modelled from the spec (digest validation happens in code not under
src, reached through pathFor's digest path components): a digest is
well-formed when it is `algorithm:encoded` with a non-empty lower-case
alphanumeric algorithm and a non-empty alphanumeric encoded part. -/
def validDigest (d : Digest) : Bool :=
  match d.toList with
  | [] => false
  | c :: rest => (c != ':') && validDigestAux (c :: rest)

/-- tagStore.Tag. The current-tag path computation never fails for a
named repository. The index write is modelled from the spec
(linkedBlobStore.linkBlob and blobStore.link are not under src): it
validates the descriptor's digest — rejecting a malformed digest before
any storage mutation — then writes the tag-revision index-entry link
(creating the tag's directory entry) and only then overwrites the
current-tag link; a failure of either write aborts the operation with
that error. -/
def Tag (f : Faults) (s : State) (t : String) (desc : Descriptor) :
    State × Option StorageErr :=
  if !validDigest desc.digest then
    (s, some .digestInvalid)
  else
    match f.putIndexErr with
    | some e => (s, some e)
    | none =>
      match f.putCurrentErr with
      | some e =>
        ({ s with
            tagDir := some (insertDirEntry (tagsOf s) t)
            index := insertIndexEntry s.index t desc.digest }, some e)
      | none =>
        ({ s with
            tagDir := some (insertDirEntry (tagsOf s) t)
            index := insertIndexEntry s.index t desc.digest
            current := setCurrent s.current t desc.digest }, none)

/-- Modelled from the spec (pathFor's per-tag path and the driver's
recursive delete are not under src): driver.Delete on the tag's path
removes the tag's directory entry and its current-tag link — the
tag-revision index entries are intentionally left behind, they are
historical records never deleted by this subsystem — and fails with a
PathNotFoundError when the tag has neither a directory entry nor a
current link. -/
def driverDeleteTag (f : Faults) (s : State) (t : String) :
    State × Option StorageErr :=
  match f.deleteErr t with
  | some e => (s, some e)
  | none =>
    if t ∈ tagsOf s ∨ currentOf s t ≠ none then
      ({ s with
          tagDir := s.tagDir.map (fun l => l.filter (fun x => x != t))
          current := s.current.filter (fun p => p.1 != t) }, none)
    else
      (s, some .pathNotFound)

/-- tagStore.Untag: delete the tag's path; a PathNotFoundError is
absorbed (Untag is idempotent), any other delete failure is surfaced. -/
def Untag (f : Faults) (s : State) (t : String) : State × Option StorageErr :=
  match driverDeleteTag f s t with
  | (_, some .pathNotFound) => (s, none)
  | (s1, some e) => (s1, some e)
  | (s1, none) => (s1, none)

/-- One unit of Lookup work observed at its read: `true` exactly when
the read of the tag's current link succeeds with the target digest. -/
def matchesTarget (f : Faults) (s : State) (d : Digest) (t : String) : Bool :=
  match readlink f s t with
  | .ok td => td == d
  | .error _ => false

/-- The first fatal (non-PathNotFound) read failure over the tags, in
scan order, if any. -/
def firstFatal (f : Faults) (s : State) : List String → Option StorageErr
  | [] => none
  | t :: rest =>
    match readlink f s t with
    | .error .pathNotFound => firstFatal f s rest
    | .error e => some e
    | .ok _ => firstFatal f s rest

/-- The per-tag scan of Lookup (tagstore.go lines 157–233), sequenced in
tag order: a PathNotFoundError for a tag's read silently skips the tag,
any other read failure aborts the whole scan with that error and no
partial result, and a successful read contributes the tag when its
digest equals the target. -/
def lookupScan (f : Faults) (s : State) (d : Digest) :
    List String → Except StorageErr (List String)
  | [] => .ok []
  | t :: rest =>
    match readlink f s t with
    | .error .pathNotFound => lookupScan f s d rest
    | .error e => .error e
    | .ok td =>
      match lookupScan f s d rest with
      | .error e => .error e
      | .ok l => .ok (if td == d then t :: l else l)

/-- tagStore.Lookup: enumerate the tags via All — treating
ErrRepositoryUnknown as an empty tag set — then scan every tag's
current link for the target digest. -/
def Lookup (f : Faults) (s : State) (desc : Descriptor) :
    Except StorageErr (List String) :=
  match All f s with
  | (tags, none) => lookupScan f s desc.digest tags
  | (tags, some (.repositoryUnknown _)) => lookupScan f s desc.digest tags
  | (_, some e) => .error e

/-- The collection loop of Lookup (tagstore.go lines 216–233) after
every unit of work has completed: the fatal errors the units sent sit
buffered in errChan, the matching tags they sent sit buffered in
tagChan, tagChan has been closed by the waiter, and the loop repeatedly
selects — nondeterministically when several cases are ready — between
receiving an error (cancel and return nil with that error), receiving a
buffered tag (append it and loop), and observing tagChan's close
(close errChan, break, and return the accumulated tags with nil
error). `LoopRun errBuf tagBuf acc r` holds when the loop, started with
those buffers and accumulator, can produce the result `r`. -/
inductive LoopRun :
    List StorageErr → List String → List String →
    List String × Option StorageErr → Prop
  | takeErr (e : StorageErr) (erest : List StorageErr) (tagBuf acc : List String) :
      LoopRun (e :: erest) tagBuf acc ([], some e)
  | takeTag (errBuf : List StorageErr) (t : String) (trest acc : List String)
      (r : List String × Option StorageErr) :
      LoopRun errBuf trest (acc ++ [t]) r →
      LoopRun errBuf (t :: trest) acc r
  | closed (errBuf : List StorageErr) (acc : List String) :
      LoopRun errBuf [] acc (acc, none)

/-- Well-formedness of a storage state under the path layout: current
links live inside tag directories, so a repository with no tag
directory has no current links, and a directory listing has no
duplicate entries, each current link belonging to a listed tag. -/
def WF (s : State) : Prop :=
  match s.tagDir with
  | none => s.current = []
  | some l => l.Nodup ∧ ∀ p ∈ s.current, p.1 ∈ l

/-- The data-model invariant: every current-tag link points at a digest
for which the tag-revision index entry of that tag exists. -/
def Inv (s : State) : Prop :=
  ∀ p ∈ s.current, p ∈ s.index

instance (s : State) : Decidable (Inv s) :=
  inferInstanceAs (Decidable (∀ p ∈ s.current, p ∈ s.index))

instance (s : State) : Decidable (WF s) :=
  match h : s.tagDir with
  | none => decidable_of_iff (s.current = []) (by unfold WF; rw [h])
  | some l =>
    decidable_of_iff (l.Nodup ∧ ∀ p ∈ s.current, p.1 ∈ l) (by unfold WF; rw [h])

/-! ## Association-list lemmas -/

theorem lookupLink_setCurrent_self (l : List (String × Digest)) (t : String)
    (d : Digest) : lookupLink (setCurrent l t d) t = some d := by
  unfold lookupLink setCurrent
  rw [List.find?_cons_of_pos]
  · rfl
  · simp

theorem lookupLink_filter_ne (l : List (String × Digest)) (t : String) :
    lookupLink (l.filter (fun p => p.1 != t)) t = none := by
  have h : (l.filter (fun p => p.1 != t)).find? (fun p => p.1 == t) = none := by
    rw [List.find?_eq_none]
    intro p hp
    have h2 := (List.mem_filter.1 hp).2
    simp only [bne_iff_ne, ne_eq] at h2
    simp [h2]
  simp [lookupLink, h]

theorem lookupLink_mem (l : List (String × Digest)) (t : String) (d : Digest)
    (h : lookupLink l t = some d) : (t, d) ∈ l := by
  unfold lookupLink at h
  obtain ⟨p, hp, hpd⟩ := Option.map_eq_some'.1 h
  have hmem := List.mem_of_find?_eq_some hp
  have hkey := List.find?_some hp
  obtain ⟨a, b⟩ := p
  simp only [beq_iff_eq] at hkey
  simp only at hpd
  subst hkey
  subst hpd
  exact hmem

/-! ## C5 — Untag leaves the tag-revision index untouched -/

/-- C5: Untag removes only the current-tag link of the tag: the
tag-revision index entries of every tag are exactly the ones that
existed before the call, whether or not the tag had a current link and
whatever the driver's delete outcome. -/
theorem untag_preserves_index (f : Faults) (s : State) (t : String) :
    ((Untag f s t).1).index = s.index := by
  unfold Untag driverDeleteTag
  cases hd : f.deleteErr t with
  | some e => cases e <;> rfl
  | none =>
    by_cases hc : t ∈ tagsOf s ∨ currentOf s t ≠ none
    · rw [if_pos hc]
    · rw [if_neg hc]

theorem untag_preserves_index_check :
    ((Untag noFaults ⟨"a/b", some ["a"], [("a", "sha256:aaaa")],
        [("a", "sha256:aaaa")]⟩ "a").1).index = [("a", "sha256:aaaa")] :=
  untag_preserves_index noFaults
    ⟨"a/b", some ["a"], [("a", "sha256:aaaa")], [("a", "sha256:aaaa")]⟩ "a"

/-! ## C6 — All on a never-tagged repository -/

/-- C6: All on a repository whose tag directory does not exist returns
an empty sequence paired with ErrRepositoryUnknown naming the
repository, while any listing failure other than a PathNotFoundError is
surfaced unmodified. -/
theorem all_unknown_repository (f : Faults) (s : State) :
    (f.listErr = none → s.tagDir = none →
      All f s = ([], some (.repositoryUnknown s.name))) ∧
    (∀ e, f.listErr = some e → e ≠ .pathNotFound → All f s = ([], some e)) := by
  constructor
  · intro h1 h2
    simp [All, driverList, h1, h2]
  · intro e h1 hne
    simp only [All, driverList, h1]

theorem all_unknown_repository_check :
    All noFaults ⟨"a/b", none, [], []⟩ =
      ([], some (.repositoryUnknown "a/b")) ∧
    All { noFaults with listErr := some (.other "boom") } ⟨"a/b", none, [], []⟩ =
      ([], some (.other "boom")) :=
  ⟨(all_unknown_repository noFaults ⟨"a/b", none, [], []⟩).1 rfl rfl,
   (all_unknown_repository { noFaults with listErr := some (.other "boom") }
      ⟨"a/b", none, [], []⟩).2 (.other "boom") rfl (by decide)⟩

/-! ## C9 — Tag rejects a malformed digest before any mutation -/

/-- C9: Tag with an empty or malformed digest fails with the digest
validation error and performs no storage mutation: the resulting state
equals the state before the call. -/
theorem tag_invalid_digest_rejected (f : Faults) (s : State) (t : String)
    (desc : Descriptor) (h : validDigest desc.digest = false) :
    Tag f s t desc = (s, some .digestInvalid) := by
  simp [Tag, h]

theorem tag_invalid_digest_rejected_check :
    validDigest "" = false ∧
    Tag noFaults ⟨"a/b", none, [], []⟩ "latest" ⟨""⟩ =
      (⟨"a/b", none, [], []⟩, some .digestInvalid) :=
  ⟨by decide,
   tag_invalid_digest_rejected noFaults ⟨"a/b", none, [], []⟩ "latest" ⟨""⟩
     (by decide)⟩

/-! ## Evaluation lemmas for the fault-free operations -/

/-- A repository on which no tag was ever set. -/
def emptyRepo : State :=
  { name := "a/b", tagDir := none, current := [], index := [] }

theorem tag_noFaults_eq (s : State) (t : String) (d : Digest)
    (hv : validDigest d = true) :
    Tag noFaults s t ⟨d⟩ =
      ({ s with
          tagDir := some (insertDirEntry (tagsOf s) t)
          index := insertIndexEntry s.index t d
          current := setCurrent s.current t d }, none) := by
  simp [Tag, hv, noFaults]

theorem untag_noFaults_cases (s : State) (t : String) :
    Untag noFaults s t =
      if t ∈ tagsOf s ∨ currentOf s t ≠ none then
        ({ s with
            tagDir := s.tagDir.map (fun l => l.filter (fun x => x != t))
            current := s.current.filter (fun p => p.1 != t) }, none)
      else (s, none) := by
  unfold Untag driverDeleteTag
  simp only [noFaults]
  by_cases hc : t ∈ tagsOf s ∨ currentOf s t ≠ none
  · rw [if_pos hc, if_pos hc]
  · rw [if_neg hc, if_neg hc]

theorem get_after_tag (s : State) (t : String) (d : Digest)
    (hv : validDigest d = true) :
    Get noFaults ((Tag noFaults s t ⟨d⟩).1) t = .ok ⟨d⟩ := by
  rw [tag_noFaults_eq s t d hv]
  simp [Get, readlink, noFaults, currentOf, lookupLink_setCurrent_self]

theorem not_mem_dir_filter (o : Option (List String)) (t : String) :
    t ∉ (o.map (fun l => l.filter (fun x => x != t))).getD [] := by
  cases o with
  | none => simp
  | some l => simp [List.mem_filter]

/-! ## C2 — Tag/Get round-trip and last-writer-wins -/

/-- C2: after a successful Tag of tag `t` to a valid digest `d` —
whatever the prior state, so in particular after earlier Tag calls on
`t` with other digests — Get on `t` succeeds and returns a descriptor
holding exactly `d`; explicitly, Tag(t, d1) then Tag(t, d) then Get(t)
returns d (last writer wins). -/
theorem tag_get_roundtrip (s : State) (t : String) (d : Digest)
    (hv : validDigest d = true) :
    (Tag noFaults s t ⟨d⟩).2 = none ∧
    Get noFaults ((Tag noFaults s t ⟨d⟩).1) t = .ok ⟨d⟩ ∧
    (∀ d1, validDigest d1 = true →
      Get noFaults ((Tag noFaults ((Tag noFaults s t ⟨d1⟩).1) t ⟨d⟩).1) t =
        .ok ⟨d⟩) := by
  refine ⟨?_, get_after_tag s t d hv, ?_⟩
  · rw [tag_noFaults_eq s t d hv]
  · intro d1 hv1
    exact get_after_tag ((Tag noFaults s t ⟨d1⟩).1) t d hv

theorem tag_get_roundtrip_check :
    (Tag noFaults emptyRepo "latest" ⟨"sha256:aaaa"⟩).2 = none ∧
    Get noFaults ((Tag noFaults emptyRepo "latest" ⟨"sha256:aaaa"⟩).1) "latest" =
      .ok ⟨"sha256:aaaa"⟩ ∧
    Get noFaults
        ((Tag noFaults ((Tag noFaults emptyRepo "latest" ⟨"sha256:bbbb"⟩).1)
          "latest" ⟨"sha256:aaaa"⟩).1) "latest" = .ok ⟨"sha256:aaaa"⟩ :=
  ⟨(tag_get_roundtrip emptyRepo "latest" "sha256:aaaa" (by decide)).1,
   (tag_get_roundtrip emptyRepo "latest" "sha256:aaaa" (by decide)).2.1,
   (tag_get_roundtrip emptyRepo "latest" "sha256:aaaa" (by decide)).2.2
     "sha256:bbbb" (by decide)⟩

/-! ## C7 — Get on an absent current link -/

/-- C7: Get on a tag whose current-tag link is absent fails with
ErrTagUnknown for that tag, any read failure other than a
PathNotFoundError is surfaced unchanged, and after Tag(t, d) followed
by Untag(t) a Get(t) fails with ErrTagUnknown{t}. -/
theorem get_unknown_tag (f : Faults) (s : State) (t : String) :
    (f.readErr t = none → currentOf s t = none →
      Get f s t = .error (.tagUnknown t)) ∧
    (∀ e, f.readErr t = some e → e ≠ .pathNotFound → Get f s t = .error e) ∧
    (∀ d, validDigest d = true →
      Get noFaults ((Untag noFaults ((Tag noFaults s t ⟨d⟩).1) t).1) t =
        .error (.tagUnknown t)) := by
  refine ⟨?_, ?_, ?_⟩
  · intro h1 h2
    simp [Get, readlink, h1, h2]
  · intro e h1 hne
    simp only [Get, readlink, h1]
  · intro d hv
    rw [tag_noFaults_eq s t d hv]
    rw [untag_noFaults_cases]
    rw [if_pos (Or.inr (by simp [currentOf, lookupLink_setCurrent_self]))]
    simp [Get, readlink, noFaults, currentOf, lookupLink_filter_ne]

theorem get_unknown_tag_check :
    Get noFaults emptyRepo "latest" = .error (.tagUnknown "latest") ∧
    Get { noFaults with readErr := fun _ => some (.other "boom") } emptyRepo
      "latest" = .error (.other "boom") ∧
    Get noFaults
        ((Untag noFaults ((Tag noFaults emptyRepo "latest" ⟨"sha256:aaaa"⟩).1)
          "latest").1) "latest" = .error (.tagUnknown "latest") :=
  ⟨(get_unknown_tag noFaults emptyRepo "latest").1 rfl rfl,
   (get_unknown_tag { noFaults with readErr := fun _ => some (.other "boom") }
      emptyRepo "latest").2.1 (.other "boom") rfl (by decide),
   (get_unknown_tag noFaults emptyRepo "latest").2.2 "sha256:aaaa" (by decide)⟩

/-! ## C8 — Untag idempotence and delete-error surfacing -/

/-- C8: Untag on a tag with no current-tag link succeeds with no error
and leaves the state unchanged; a PathNotFoundError raised by the
delete is absorbed; any other delete failure is surfaced with the state
unchanged; and a second consecutive Untag after any Untag succeeds with
no error. -/
theorem untag_idempotent (f : Faults) (s : State) (t : String) :
    (f.deleteErr t = none → t ∉ tagsOf s → currentOf s t = none →
      Untag f s t = (s, none)) ∧
    (f.deleteErr t = some .pathNotFound → Untag f s t = (s, none)) ∧
    (∀ e, f.deleteErr t = some e → e ≠ .pathNotFound →
      Untag f s t = (s, some e)) ∧
    Untag noFaults ((Untag noFaults s t).1) t = ((Untag noFaults s t).1, none) := by
  refine ⟨?_, ?_, ?_, ?_⟩
  · intro h1 h2 h3
    unfold Untag driverDeleteTag
    rw [h1, if_neg (by simp [h2, h3])]
  · intro h1
    unfold Untag driverDeleteTag
    rw [h1]
  · intro e h1 hne
    unfold Untag driverDeleteTag
    rw [h1]
    cases e with
    | pathNotFound => exact absurd rfl hne
    | repositoryUnknown n => rfl
    | tagUnknown tg => rfl
    | digestInvalid => rfl
    | other m => rfl
  · rw [untag_noFaults_cases s t]
    by_cases hc : t ∈ tagsOf s ∨ currentOf s t ≠ none
    · rw [if_pos hc]
      rw [untag_noFaults_cases]
      rw [if_neg ?_]
      push_neg
      constructor
      · exact not_mem_dir_filter s.tagDir t
      · exact lookupLink_filter_ne s.current t
    · rw [if_neg hc]
      rw [untag_noFaults_cases]
      rw [if_neg hc]

theorem untag_idempotent_check :
    Untag noFaults emptyRepo "latest" = (emptyRepo, none) ∧
    Untag { noFaults with deleteErr := fun _ => some .pathNotFound } emptyRepo
      "latest" = (emptyRepo, none) ∧
    Untag { noFaults with deleteErr := fun _ => some (.other "boom") } emptyRepo
      "latest" = (emptyRepo, some (.other "boom")) ∧
    Untag noFaults ((Untag noFaults emptyRepo "latest").1) "latest" =
      ((Untag noFaults emptyRepo "latest").1, none) :=
  ⟨(untag_idempotent noFaults emptyRepo "latest").1 rfl (by decide) rfl,
   (untag_idempotent { noFaults with deleteErr := fun _ => some .pathNotFound }
      emptyRepo "latest").2.1 rfl,
   (untag_idempotent { noFaults with deleteErr := fun _ => some (.other "boom") }
      emptyRepo "latest").2.2.1 (.other "boom") rfl (by decide),
   (untag_idempotent noFaults emptyRepo "latest").2.2.2⟩

/-! ## Lookup scan lemmas -/

theorem readlink_noFaults (s : State) (t : String) :
    readlink noFaults s t =
      match currentOf s t with
      | some d => .ok d
      | none => .error .pathNotFound := rfl

theorem matchesTarget_noFaults_iff (s : State) (d : Digest) (t : String) :
    matchesTarget noFaults s d t = true ↔ currentOf s t = some d := by
  unfold matchesTarget
  rw [readlink_noFaults]
  cases h : currentOf s t with
  | none => simp
  | some td => simp

theorem firstFatal_noFaults (s : State) (l : List String) :
    firstFatal noFaults s l = none := by
  induction l with
  | nil => rfl
  | cons t rest ih =>
    unfold firstFatal
    rw [readlink_noFaults]
    cases h : currentOf s t with
    | none => exact ih
    | some td => exact ih

theorem lookupScan_eq_filter (f : Faults) (s : State) (d : Digest)
    (l : List String) (h : firstFatal f s l = none) :
    lookupScan f s d l = .ok (l.filter (matchesTarget f s d)) := by
  induction l with
  | nil => rfl
  | cons t rest ih =>
    unfold lookupScan
    unfold firstFatal at h
    cases hr : readlink f s t with
    | ok td =>
      rw [hr] at h
      rw [ih h]
      have hm : matchesTarget f s d t = (td == d) := by
        unfold matchesTarget
        rw [hr]
      simp [List.filter_cons, hm]
    | error e =>
      rw [hr] at h
      cases e with
      | pathNotFound =>
        have hm : matchesTarget f s d t = false := by
          unfold matchesTarget
          rw [hr]
        rw [ih h]
        simp [List.filter_cons, hm]
      | repositoryUnknown n => simp at h
      | tagUnknown tg => simp at h
      | digestInvalid => simp at h
      | other m => simp at h

/-! ## C1 — Lookup returns exactly the matching tags -/

/-- C1: with a fault-free backend, Lookup on any well-formed repository
state succeeds and returns exactly the tags whose current-tag link
holds the target digest — every matching tag included, no non-matching
tag, no duplicates (the order merely follows the directory listing) —
and on a repository where no tag was ever set it returns the empty set
with no error. -/
theorem lookup_exact_matches (s : State) (d : Digest) (hwf : WF s) :
    Lookup noFaults s ⟨d⟩ =
      .ok ((tagsOf s).filter (matchesTarget noFaults s d)) ∧
    ((tagsOf s).filter (matchesTarget noFaults s d)).Nodup ∧
    (∀ t, t ∈ (tagsOf s).filter (matchesTarget noFaults s d) ↔
      currentOf s t = some d) ∧
    (s.tagDir = none → Lookup noFaults s ⟨d⟩ = .ok []) := by
  have hscan : ∀ l, lookupScan noFaults s d l =
      .ok (l.filter (matchesTarget noFaults s d)) :=
    fun l => lookupScan_eq_filter noFaults s d l (firstFatal_noFaults s l)
  have hl : noFaults.listErr = none := rfl
  refine ⟨?_, ?_, ?_, ?_⟩
  · cases hdir : s.tagDir with
    | none => simp [Lookup, All, driverList, hl, hdir, tagsOf, hscan]
    | some l => simp [Lookup, All, driverList, hl, hdir, tagsOf, hscan]
  · cases hdir : s.tagDir with
    | none => simp [tagsOf, hdir]
    | some l =>
      unfold WF at hwf
      rw [hdir] at hwf
      exact List.Nodup.filter _ (by simpa [tagsOf, hdir] using hwf.1)
  · intro t
    constructor
    · intro ht
      exact (matchesTarget_noFaults_iff s d t).1 (List.mem_filter.1 ht).2
    · intro hc
      rw [List.mem_filter]
      refine ⟨?_, (matchesTarget_noFaults_iff s d t).2 hc⟩
      have hmem := lookupLink_mem s.current t d hc
      unfold WF at hwf
      cases hdir : s.tagDir with
      | none =>
        rw [hdir] at hwf
        rw [hwf] at hmem
        cases hmem
      | some l =>
        rw [hdir] at hwf
        have hin := hwf.2 (t, d) hmem
        simpa [tagsOf, hdir] using hin
  · intro hdir
    simp [Lookup, All, driverList, hl, hdir, lookupScan]

/-- The matching repository used as a concrete check: tags a and b are
current, pointing at two different digests. -/
def twoTagRepo : State :=
  { name := "a/b"
    tagDir := some ["a", "b"]
    current := [("a", "sha256:aaaa"), ("b", "sha256:0000")]
    index := [("a", "sha256:aaaa"), ("b", "sha256:0000")] }

theorem lookup_exact_matches_check :
    Lookup noFaults twoTagRepo ⟨"sha256:aaaa"⟩ =
      .ok ((tagsOf twoTagRepo).filter
        (matchesTarget noFaults twoTagRepo "sha256:aaaa")) ∧
    ("a" ∈ (tagsOf twoTagRepo).filter
        (matchesTarget noFaults twoTagRepo "sha256:aaaa") ↔
      currentOf twoTagRepo "a" = some "sha256:aaaa") ∧
    Lookup noFaults emptyRepo ⟨"sha256:aaaa"⟩ = .ok [] :=
  ⟨(lookup_exact_matches twoTagRepo "sha256:aaaa" (by decide)).1,
   (lookup_exact_matches twoTagRepo "sha256:aaaa" (by decide)).2.2.1 "a",
   (lookup_exact_matches emptyRepo "sha256:aaaa" (by decide)).2.2.2 rfl⟩

/-! ## C3 — Lookup can drop a buffered fatal read error -/

/-- A backend that fails fatally when reading tag b's current link. -/
def boomOnB : Faults :=
  { noFaults with readErr := fun t => if t = "b" then some (.other "boom") else none }

/-- A backend that reports a missing path when reading tag b's current
link (as if b vanished concurrently). -/
def vanishOnB : Faults :=
  { noFaults with readErr := fun t => if t = "b" then some .pathNotFound else none }

/-- C3 (failing input): the claim that a fatal per-tag read failure
always makes Lookup return that error with no partial tag list is
violated by the collection loop. On the two-tag repository with the
target digest held by tag a and a fatal failure reading tag b, worker a
buffers the matching tag and worker b buffers the fatal error; once
both complete and tagChan is closed, the select of tagstore.go lines
216–233 has two ready cases, so the run that takes tagChan's close
first returns the non-empty list with nil error, discarding the
buffered fatal error — while the error-returning run is also reachable.
The PathNotFound half of the claim does hold: an injected missing-path
read merely omits the tag and Lookup still succeeds. -/
theorem lookup_select_race :
    matchesTarget boomOnB twoTagRepo "sha256:aaaa" "a" = true ∧
    readlink boomOnB twoTagRepo "b" = .error (.other "boom") ∧
    LoopRun [StorageErr.other "boom"] ["a"] [] (["a"], none) ∧
    LoopRun [StorageErr.other "boom"] ["a"] [] ([], some (.other "boom")) ∧
    Lookup vanishOnB twoTagRepo ⟨"sha256:aaaa"⟩ = .ok ["a"] :=
  ⟨rfl, rfl,
   LoopRun.takeTag [StorageErr.other "boom"] "a" [] []
     (["a"], none) (LoopRun.closed [StorageErr.other "boom"] ["a"]),
   LoopRun.takeErr (StorageErr.other "boom") [] ["a"] [],
   rfl⟩

/-! ## C4 — Tag's two writes, in order, preserve the invariant -/

theorem mem_insertIndexEntry_self (l : List (String × Digest)) (t : String)
    (d : Digest) : (t, d) ∈ insertIndexEntry l t d := by
  unfold insertIndexEntry
  split
  · assumption
  · exact List.mem_append_right _ (by simp)

theorem mem_insertIndexEntry_of_mem (l : List (String × Digest)) (t : String)
    (d : Digest) (p : String × Digest) (hp : p ∈ l) :
    p ∈ insertIndexEntry l t d := by
  unfold insertIndexEntry
  split
  · exact hp
  · exact List.mem_append_left _ hp

/-- C4: every Tag performs the tag-revision index-entry write before
the current-link overwrite, so the invariant — a present current-tag
link always has an index entry for its digest — is preserved by Tag and
by Untag under every driver outcome; when the index-entry write fails,
Tag aborts with that error and the whole state, in particular the
current-tag link, is unchanged; and whenever the index-entry write
succeeds the index entry is present in the resulting state, whatever
becomes of the subsequent current-link write. -/
theorem tag_write_order (f : Faults) (s : State) (t : String) (desc : Descriptor)
    (hInv : Inv s) :
    Inv (Tag f s t desc).1 ∧
    Inv (Untag f s t).1 ∧
    (∀ e, validDigest desc.digest = true → f.putIndexErr = some e →
      Tag f s t desc = (s, some e)) ∧
    (validDigest desc.digest = true → f.putIndexErr = none →
      (t, desc.digest) ∈ ((Tag f s t desc).1).index) := by
  refine ⟨?_, ?_, ?_, ?_⟩
  · unfold Tag
    by_cases hv : validDigest desc.digest
    · rw [if_neg (by simp [hv])]
      cases hpi : f.putIndexErr with
      | some e => exact hInv
      | none =>
        cases hpc : f.putCurrentErr with
        | some e =>
          intro p hp
          exact mem_insertIndexEntry_of_mem _ _ _ p (hInv p hp)
        | none =>
          intro p hp
          rcases List.mem_cons.1 hp with h | h
          · subst h
            exact mem_insertIndexEntry_self _ _ _
          · exact mem_insertIndexEntry_of_mem _ _ _ p
              (hInv p (List.mem_filter.1 h).1)
    · rw [if_pos (by simp [hv])]
      exact hInv
  · unfold Untag driverDeleteTag
    cases hd : f.deleteErr t with
    | some e => cases e <;> exact hInv
    | none =>
      by_cases hc : t ∈ tagsOf s ∨ currentOf s t ≠ none
      · rw [if_pos hc]
        intro p hp
        exact hInv p (List.mem_filter.1 hp).1
      · rw [if_neg hc]
        exact hInv
  · intro e hv hpi
    unfold Tag
    rw [if_neg (by simp [hv]), hpi]
  · intro hv hpi
    unfold Tag
    rw [if_neg (by simp [hv]), hpi]
    cases hpc : f.putCurrentErr with
    | some e => exact mem_insertIndexEntry_self _ _ _
    | none => exact mem_insertIndexEntry_self _ _ _

theorem tag_write_order_check :
    Inv (Tag noFaults emptyRepo "latest" ⟨"sha256:aaaa"⟩).1 ∧
    Tag { noFaults with putIndexErr := some (.other "boom") } emptyRepo "latest"
      ⟨"sha256:aaaa"⟩ = (emptyRepo, some (.other "boom")) ∧
    ("latest", "sha256:aaaa") ∈
      ((Tag noFaults emptyRepo "latest" ⟨"sha256:aaaa"⟩).1).index :=
  ⟨(tag_write_order noFaults emptyRepo "latest" ⟨"sha256:aaaa"⟩ (by decide)).1,
   (tag_write_order { noFaults with putIndexErr := some (.other "boom") }
      emptyRepo "latest" ⟨"sha256:aaaa"⟩ (by decide)).2.2.1 (.other "boom")
      (by decide) rfl,
   (tag_write_order noFaults emptyRepo "latest" ⟨"sha256:aaaa"⟩ (by decide)).2.2.2
      (by decide) rfl⟩

/-! ## C10 — the Lookup admission gate bounds in-flight reads

Lookup's concurrency (tagstore.go lines 157–172) is modelled as a step
relation on the statuses of the per-tag units of work: the main loop
sends into the capacity-10 limiter channel before spawning a unit, so a
unit may become active only while fewer than 10 are active, and every
unit releases its slot unconditionally when it completes (its read is
in flight only while it is active and therefore holds a slot). -/

/-- Status of one per-tag unit of Lookup work with respect to the
admission gate: not yet admitted, holding a slot with its read in
flight, or completed (slot released). -/
inductive WStatus where
  | idle
  | active
  | done
  deriving DecidableEq, Repr

/-- The capacity of the limiter channel in Lookup. -/
def limiterCap : Nat := 10

/-- How many units currently hold a slot (their backend reads are the
ones that can be in flight). -/
def activeCount : List WStatus → Nat
  | [] => 0
  | WStatus.active :: rest => activeCount rest + 1
  | _ :: rest => activeCount rest

/-- One scheduler step: a unit is admitted only while fewer than
`limiterCap` slots are held (the channel send blocks otherwise), and a
completing unit releases its slot unconditionally. -/
inductive GateStep : List WStatus → List WStatus → Prop
  | start (ws : List WStatus) (i : Nat) (h : ws[i]? = some WStatus.idle)
      (hcap : activeCount ws < limiterCap) :
      GateStep ws (ws.set i WStatus.active)
  | finish (ws : List WStatus) (i : Nat) (h : ws[i]? = some WStatus.active) :
      GateStep ws (ws.set i WStatus.done)

/-- The states reachable during one Lookup over `n` tags: all units
start not yet admitted, and the scheduler interleaves steps freely. -/
inductive GateReach : List WStatus → Prop
  | init (n : Nat) : GateReach (List.replicate n WStatus.idle)
  | step {ws ws' : List WStatus} : GateReach ws → GateStep ws ws' →
      GateReach ws'

theorem activeCount_replicate_idle (n : Nat) :
    activeCount (List.replicate n WStatus.idle) = 0 := by
  induction n with
  | zero => rfl
  | succ k ih => simpa [List.replicate_succ, activeCount] using ih

theorem activeCount_set_active (ws : List WStatus) (i : Nat)
    (h : ws[i]? = some WStatus.idle) :
    activeCount (ws.set i WStatus.active) = activeCount ws + 1 := by
  induction ws generalizing i with
  | nil => simp at h
  | cons w rest ih =>
    cases i with
    | zero =>
      simp only [List.getElem?_cons_zero, Option.some_inj] at h
      subst h
      simp [List.set, activeCount]
    | succ j =>
      simp only [List.getElem?_cons_succ] at h
      cases w with
      | idle => simp [List.set, activeCount, ih j h]
      | active => simp [List.set, activeCount, ih j h]
      | done => simp [List.set, activeCount, ih j h]

theorem activeCount_set_done_le (ws : List WStatus) (i : Nat) :
    activeCount (ws.set i WStatus.done) ≤ activeCount ws := by
  induction ws generalizing i with
  | nil => simp [List.set]
  | cons w rest ih =>
    cases i with
    | zero =>
      cases w with
      | idle => simp [List.set, activeCount]
      | active => simp [List.set, activeCount]
      | done => simp [List.set, activeCount]
    | succ j =>
      cases w with
      | idle => simpa [List.set, activeCount] using ih j
      | active => simpa [List.set, activeCount] using ih j
      | done => simpa [List.set, activeCount] using ih j

/-- C10: in every state the Lookup scheduler can reach, the number of
units holding a limiter slot — hence the number of concurrently
outstanding backend current-link reads — never exceeds the fixed
admission-gate limit of 10, however many tags the repository has. -/
theorem lookup_gate_bound (ws : List WStatus) (h : GateReach ws) :
    activeCount ws ≤ limiterCap := by
  induction h with
  | init n => simp [activeCount_replicate_idle]
  | step hr hs ih =>
    cases hs with
    | start i hidle hcap =>
      rw [activeCount_set_active _ i hidle]
      omega
    | finish i hact =>
      exact le_trans (activeCount_set_done_le _ i) ih

theorem lookup_gate_bound_check :
    GateReach [WStatus.active, WStatus.idle] ∧
    activeCount [WStatus.active, WStatus.idle] ≤ limiterCap :=
  have h0 : GateReach (List.replicate 2 WStatus.idle) := GateReach.init 2
  have hstep : GateStep (List.replicate 2 WStatus.idle)
      ((List.replicate 2 WStatus.idle).set 0 WStatus.active) :=
    GateStep.start (List.replicate 2 WStatus.idle) 0 (by decide) (by decide)
  have h1 : GateReach [WStatus.active, WStatus.idle] := by
    have h2 := GateReach.step h0 hstep
    simpa using h2
  ⟨h1, lookup_gate_bound [WStatus.active, WStatus.idle] h1⟩

end Distribution
